import Mathlib

/-!
Shallow embedding of the wikilink parsing / resolution / connection-graph
subsystem of the notebook canvas application:

* `src/renderer/src/lib/wikilinks.ts` — `parseWikilinks`,
  `resolveWikilink`, `buildConnectionMap`;
* the `backlinks` computation of
  `src/renderer/src/components/sidebar/NotebookSidebar.tsx`;
* the node data and force-layout radii of the graph view component.

JavaScript strings are modelled as `List Char`; offsets are character
counts (for the ASCII inputs of interest, JS UTF-16 code-unit offsets
coincide with character counts).  JS `trim` / `toLowerCase` are modelled
on their ASCII behaviour, which is all the material here exercises.
-/

namespace Wikilinks

/-- Convert a Lean string literal into the `List Char` model of a JS
string. -/
def chars (s : String) : List Char := s.data

/-- JS `String.prototype.trim` whitespace test, restricted to ASCII
whitespace (space, tab, LF, CR, VT, FF). -/
def isJsSpace (c : Char) : Bool :=
  c == ' ' || c == '\t' || c == '\n' || c == '\r' ||
  c == Char.ofNat 11 || c == Char.ofNat 12

/-- JS `s.trim()`: strip leading and trailing whitespace. -/
def trim (s : List Char) : List Char :=
  ((s.dropWhile isJsSpace).reverse.dropWhile isJsSpace).reverse

/-- JS `s.toLowerCase()` on ASCII: `Char.toLower` lowercases exactly
`'A'`–`'Z'`. -/
def lowerStr (s : List Char) : List Char :=
  s.map Char.toLower

/-- `WikilinkMatch` of `wikilinks.ts`: one `[[...]]` occurrence.  The
source field `end` is a Lean keyword, so it is named `endPos` here. -/
structure WikilinkMatch where
  target : List Char
  label : List Char
  start : Nat
  endPos : Nat
deriving DecidableEq, Repr

/-- `content.split('|')[0]`: the segment before the first `'|'` (the
whole content when no `'|'` occurs). -/
def pipeTarget (content : List Char) : List Char :=
  content.takeWhile (· != '|')

/-- JS `(parts[1] || parts[0])` for `parts = content.split('|')`: the
segment strictly between the first and second `'|'` when a `'|'` exists
and that segment is non-empty (the empty string is falsy in JS), else
the segment before the first `'|'`. -/
def pipeLabelSrc (content : List Char) : List Char :=
  match content.dropWhile (· != '|') with
  | [] => content.takeWhile (· != '|')
  | _ :: afterPipe =>
    if (afterPipe.takeWhile (· != '|')).isEmpty then
      content.takeWhile (· != '|')
    else
      afterPipe.takeWhile (· != '|')

/-- The global scan of `/\[\[([^\]]+)\]\]/g` performed by
`parseWikilinks`: at the current position the regex matches iff the text
starts with `[[`, then a non-empty run of characters other than `']'`,
then `]]`; on a match the scan resumes after the closing `]]`, otherwise
one character further.  `i` is the absolute offset of the head of `cs`
in the original string.  The recursion is driven by a `fuel` counter so
that the definition is structurally recursive (hence kernel-evaluable);
every step consumes at least one character, so `fuel = cs.length` never
runs out (the lemmas below carry `cs.length ≤ fuel`). -/
def parseAux : Nat → List Char → Nat → List WikilinkMatch
  | 0, _, _ => []
  | _ + 1, [], _ => []
  | fuel + 1, c :: rest, i =>
    if (c :: rest).take 2 = ['[', '['] then
      if (rest.tail.takeWhile (· != ']')) = [] then
        parseAux fuel rest (i + 1)
      else if ((rest.tail.dropWhile (· != ']')).take 2) = [']', ']'] then
        { target := trim (pipeTarget (rest.tail.takeWhile (· != ']')))
          label := trim (pipeLabelSrc (rest.tail.takeWhile (· != ']')))
          start := i
          endPos := i + (rest.tail.takeWhile (· != ']')).length + 4 } ::
          parseAux fuel ((rest.tail.dropWhile (· != ']')).drop 2)
            (i + (rest.tail.takeWhile (· != ']')).length + 4)
      else
        parseAux fuel rest (i + 1)
    else
      parseAux fuel rest (i + 1)

/-- `parseWikilinks` of `wikilinks.ts`. -/
def parseWikilinks (text : List Char) : List WikilinkMatch :=
  parseAux text.length text 0

/-- `NotebookInfo` of `wikilinks.ts`: the resolvable identity of a
notebook. -/
structure NotebookInfo where
  shapeId : List Char
  notebookId : List Char
  title : List Char
deriving DecidableEq, Repr

/-- `resolveWikilink` of `wikilinks.ts`: first candidate with an exact
`notebookId` match, else first candidate with a case-insensitive `title`
match, else `undefined` (`none`). -/
def resolveWikilink (target : List Char) (notebooks : List NotebookInfo) :
    Option NotebookInfo :=
  match notebooks.find? (fun n => n.notebookId == target) with
  | some n => some n
  | none => notebooks.find? (fun n => lowerStr n.title == lowerStr target)

/-- A notebook as supplied to `buildConnectionMap` and the sidebar:
identity plus its current markdown text. -/
structure NotebookEntry where
  shapeId : List Char
  notebookId : List Char
  title : List Char
  markdown : List Char
deriving DecidableEq, Repr

/-- The `infoList` construction of `buildConnectionMap` (and of the
sidebar and graph view): project each notebook to its `NotebookInfo`. -/
def toInfoList (notebooks : List NotebookEntry) : List NotebookInfo :=
  notebooks.map (fun n =>
    { shapeId := n.shapeId, notebookId := n.notebookId, title := n.title })

/-- The body of `buildConnectionMap`'s inner loop for one parsed link:
resolve the target against `infoList`; push `[source, target]` exactly
when resolution succeeded and the resolved shape differs from the source
shape. -/
def connectionForLink (infoList : List NotebookInfo) (nb : NotebookEntry)
    (link : WikilinkMatch) : Option (List Char × List Char) :=
  match resolveWikilink link.target infoList with
  | some resolved =>
    if resolved.shapeId ≠ nb.shapeId then
      some (nb.shapeId, resolved.shapeId)
    else
      none
  | none => none

/-- `buildConnectionMap` of `wikilinks.ts`: for each notebook in order,
for each parsed wikilink in order, the connection pushed by
`connectionForLink` (if any).  The source pushes into one `connections`
array; `flatMap` + `filterMap` reproduce that order exactly. -/
def buildConnectionMap (notebooks : List NotebookEntry) :
    List (List Char × List Char) :=
  notebooks.flatMap (fun nb =>
    (parseWikilinks nb.markdown).filterMap
      (connectionForLink (toInfoList notebooks) nb))

/-- The `backlinks` computation of `NotebookSidebar.tsx`: with no
selected shape (JS `!selectedId` is true for `null` and for the empty
string) the list is empty; with a selected id matching no notebook the
list is empty; otherwise the notebooks other than the selected one
having at least one wikilink resolving to the selected shape id, kept in
notebook-list order by a single `filter`. -/
def backlinks (selectedId : Option (List Char))
    (notebooks : List NotebookEntry) : List NotebookEntry :=
  match selectedId with
  | none => []
  | some sid =>
    if sid.isEmpty then []
    else
      match notebooks.find? (fun n => n.shapeId == sid) with
      | none => []
      | some _ =>
        notebooks.filter (fun n =>
          if n.shapeId == sid then false
          else
            (parseWikilinks n.markdown).any (fun link =>
              match resolveWikilink link.target (toInfoList notebooks) with
              | some resolved => resolved.shapeId == sid
              | none => false))

/-- `GraphNode` of the graph view: notebook identity plus the derived
outgoing-wikilink count. -/
structure GraphNode where
  id : List Char
  notebookId : List Char
  title : List Char
  linkCount : Nat
deriving DecidableEq, Repr

/-- The graph view's node list: one node per notebook with
`linkCount = parseWikilinks(n.markdown).length`. -/
def graphNodes (notebooks : List NotebookEntry) : List GraphNode :=
  notebooks.map (fun n =>
    { id := n.shapeId, notebookId := n.notebookId, title := n.title
      linkCount := (parseWikilinks n.markdown).length })

/-- The radius accessor installed by `forceCollide(25)` in the graph
view's simulation setup: d3's `forceCollide`, given a number, uses that
constant radius for every node. -/
def forceCollideRadius (_node : GraphNode) : Nat := 25

/-- The rendered marker radius of the graph view's draw loop:
`6 + Math.min(node.linkCount * 2, 10)`. -/
def nodeRenderRadius (node : GraphNode) : Nat :=
  6 + min (node.linkCount * 2) 10

/-- The regex `/\[\[([^\]]+)\]\]/` matches at offset `i` of `text`:
`text.drop i` starts with `[[`, then a non-empty run of characters other
than `']'`, then `]]`. -/
def wikilinkAt (text : List Char) (i : Nat) : Bool :=
  ((text.drop i).take 2 == ['[', '[']) &&
    !(((text.drop i).drop 2).takeWhile (· != ']')).isEmpty &&
    ((((text.drop i).drop 2).dropWhile (· != ']')).take 2 == [']', ']'])

/-- Modelled from the spec's words (§4.1), for comparison with the
source behaviour: split the delimited content on the FIRST `'|'` into
`targetPart` and optional `labelPart`; the label is `labelPart` trimmed
when a `'|'` is present, else the target. -/
def specFirstPipeLabel (content : List Char) : List Char :=
  match content.dropWhile (· != '|') with
  | [] => trim (content.takeWhile (· != '|'))
  | _ :: afterPipe => trim afterPipe

/-- The decomposition every produced match induces on the scanned text:
the text splits as `pre ++ "[[" ++ content ++ "]]" ++ suf` with the
match's offsets delimiting exactly that occurrence and its target and
label derived from `content` the way the source derives them. -/
def MatchDecomp (cs : List Char) (i : Nat) (m : WikilinkMatch) : Prop :=
  ∃ pre content suf,
    cs = pre ++ '[' :: '[' :: (content ++ ']' :: ']' :: suf) ∧
    content ≠ [] ∧ ']' ∉ content ∧
    m.start = i + pre.length ∧
    m.endPos = m.start + content.length + 4 ∧
    m.target = trim (pipeTarget content) ∧
    m.label = trim (pipeLabelSrc content)

/-! ### Concrete fixtures

The three-notebook scenario of the spec (A links to B by title and to C
by id) and a notebook linking twice to the same target. -/

def nbA : NotebookEntry :=
  { shapeId := chars "sA", notebookId := chars "a-id", title := chars "A"
    markdown := chars "See [[B]] and [[c-id|Gamma]]" }

def nbB : NotebookEntry :=
  { shapeId := chars "sB", notebookId := chars "b-id", title := chars "B"
    markdown := chars "" }

def nbC : NotebookEntry :=
  { shapeId := chars "sC", notebookId := chars "c-id", title := chars "Gamma"
    markdown := chars "" }

def dupNb : NotebookEntry :=
  { shapeId := chars "sA", notebookId := chars "a-id", title := chars "A"
    markdown := chars "[[b-id]] [[b-id]]" }

def infoX : NotebookInfo :=
  { shapeId := chars "s1", notebookId := chars "a", title := chars "X" }

def infoY : NotebookInfo :=
  { shapeId := chars "s2", notebookId := chars "b", title := chars "a" }

def infoNotes : NotebookInfo :=
  { shapeId := chars "s1", notebookId := chars "n1", title := chars "My Notes" }

def gNode0 : GraphNode :=
  { id := chars "n0", notebookId := chars "id0", title := chars "T0", linkCount := 0 }

def gNode5 : GraphNode :=
  { id := chars "n5", notebookId := chars "id5", title := chars "T5", linkCount := 5 }

/-! ### Lemmas about the scan -/

lemma parseAux_zero (cs : List Char) (i : Nat) : parseAux 0 cs i = [] := rfl

lemma parseAux_nil (fuel i : Nat) : parseAux (fuel + 1) [] i = [] := rfl

lemma parseAux_skip (fuel i : Nat) (c : Char) (rest : List Char)
    (h : (c :: rest).take 2 ≠ ['[', '[']) :
    parseAux (fuel + 1) (c :: rest) i = parseAux fuel rest (i + 1) := by
  simp only [parseAux]
  rw [if_neg h]

lemma parseAux_open_empty (fuel i : Nat) (rest2 : List Char)
    (h : rest2.takeWhile (· != ']') = []) :
    parseAux (fuel + 1) ('[' :: '[' :: rest2) i =
      parseAux fuel ('[' :: rest2) (i + 1) := by
  simp only [parseAux, List.tail_cons]
  rw [if_pos (by simp), if_pos h]

lemma parseAux_open_noclose (fuel i : Nat) (rest2 : List Char)
    (hne : rest2.takeWhile (· != ']') ≠ [])
    (h : (rest2.dropWhile (· != ']')).take 2 ≠ [']', ']']) :
    parseAux (fuel + 1) ('[' :: '[' :: rest2) i =
      parseAux fuel ('[' :: rest2) (i + 1) := by
  simp only [parseAux, List.tail_cons]
  rw [if_pos (by simp), if_neg hne, if_neg h]

lemma parseAux_open_hit (fuel i : Nat) (rest2 : List Char)
    (hne : rest2.takeWhile (· != ']') ≠ [])
    (h : (rest2.dropWhile (· != ']')).take 2 = [']', ']']) :
    parseAux (fuel + 1) ('[' :: '[' :: rest2) i =
      { target := trim (pipeTarget (rest2.takeWhile (· != ']')))
        label := trim (pipeLabelSrc (rest2.takeWhile (· != ']')))
        start := i
        endPos := i + (rest2.takeWhile (· != ']')).length + 4 } ::
        parseAux fuel ((rest2.dropWhile (· != ']')).drop 2)
          (i + (rest2.takeWhile (· != ']')).length + 4) := by
  simp only [parseAux, List.tail_cons]
  rw [if_pos (by simp), if_neg hne, if_pos h]

lemma take_two_openEq {c : Char} {rest : List Char}
    (h : (c :: rest).take 2 = ['[', '[']) :
    c = '[' ∧ ∃ rest2, rest = '[' :: rest2 := by
  rcases rest with _ | ⟨c2, rest2⟩
  · simp at h
  · simp at h
    exact ⟨h.1, rest2, by rw [h.2]⟩

lemma takeWhile_close_decomp {rest2 : List Char}
    (hcl : (rest2.dropWhile (· != ']')).take 2 = [']', ']']) :
    rest2 = rest2.takeWhile (· != ']') ++
      (']' :: ']' :: (rest2.dropWhile (· != ']')).drop 2) := by
  conv_lhs => rw [← List.takeWhile_append_dropWhile (p := (· != ']')) (l := rest2)]
  congr 1
  conv_lhs => rw [← List.take_append_drop 2 (rest2.dropWhile (· != ']'))]
  rw [hcl]
  rfl

lemma wikilinkAt_nil (j : Nat) : wikilinkAt [] j = false := by
  simp [wikilinkAt]

lemma wikilinkAt_succ (c : Char) (cs : List Char) (j : Nat) :
    wikilinkAt (c :: cs) (j + 1) = wikilinkAt cs j := by
  simp only [wikilinkAt, List.drop_succ_cons]

lemma wikilinkAt_open_zero (rest2 : List Char) :
    wikilinkAt ('[' :: '[' :: rest2) 0 =
      (!(rest2.takeWhile (· != ']')).isEmpty &&
        ((rest2.dropWhile (· != ']')).take 2 == [']', ']'])) := by
  simp [wikilinkAt]

lemma wikilinkAt_zero_of_not_open {c : Char} {rest : List Char}
    (h : (c :: rest).take 2 ≠ ['[', '[']) : wikilinkAt (c :: rest) 0 = false := by
  have hb : ((c :: rest).take 2 == ['[', '[']) = false := by
    simpa using h
  simp only [wikilinkAt, List.drop_zero, hb, Bool.false_and]

lemma wikilinkAt_ge_length {text : List Char} {j : Nat} (h : text.length ≤ j) :
    wikilinkAt text j = false := by
  have hd : text.drop j = [] := List.drop_eq_nil_of_le h
  simp [wikilinkAt, hd]

lemma isEmpty_false_of_ne_nil {l : List Char} (h : l ≠ []) : l.isEmpty = false := by
  cases hE : l.isEmpty
  · rfl
  · exact absurd (List.isEmpty_iff.mp hE) h

lemma forall_wikilinkAt_cons_iff {c : Char} {cs : List Char}
    (h0 : wikilinkAt (c :: cs) 0 = false) :
    (∀ j, wikilinkAt cs j = false) ↔ ∀ j, wikilinkAt (c :: cs) j = false := by
  constructor
  · intro hall j
    cases j with
    | zero => exact h0
    | succ j => rw [wikilinkAt_succ]; exact hall j
  · intro hall j
    have := hall (j + 1)
    rwa [wikilinkAt_succ] at this

lemma parseAux_eq_nil_iff :
    ∀ (fuel : Nat) (cs : List Char) (i : Nat), cs.length ≤ fuel →
      (parseAux fuel cs i = [] ↔ ∀ j, wikilinkAt cs j = false) := by
  intro fuel
  induction fuel with
  | zero =>
    intro cs i hle
    have hnil : cs = [] := List.length_eq_zero.mp (Nat.le_zero.mp hle)
    subst hnil
    rw [parseAux_zero]
    simp [wikilinkAt_nil]
  | succ fuel ih =>
    intro cs i hle
    rcases cs with _ | ⟨c, rest⟩
    · rw [parseAux_nil]
      simp [wikilinkAt_nil]
    · have hlen : rest.length ≤ fuel := by
        simp only [List.length_cons] at hle
        omega
      by_cases hopen : (c :: rest).take 2 = ['[', '[']
      · obtain ⟨rfl, rest2, rfl⟩ := take_two_openEq hopen
        by_cases hemp : rest2.takeWhile (· != ']') = []
        · rw [parseAux_open_empty _ _ _ hemp, ih _ _ hlen]
          refine forall_wikilinkAt_cons_iff ?_
          rw [wikilinkAt_open_zero]
          simp [hemp]
        · by_cases hcl : (rest2.dropWhile (· != ']')).take 2 = [']', ']']
          · rw [parseAux_open_hit _ _ _ hemp hcl]
            refine iff_of_false (by simp) ?_
            intro hall
            have h0 := hall 0
            rw [wikilinkAt_open_zero] at h0
            rw [isEmpty_false_of_ne_nil hemp, hcl] at h0
            simp at h0
          · rw [parseAux_open_noclose _ _ _ hemp hcl, ih _ _ hlen]
            refine forall_wikilinkAt_cons_iff ?_
            rw [wikilinkAt_open_zero]
            have : ((rest2.dropWhile (· != ']')).take 2 == [']', ']']) = false := by
              simpa using hcl
            simp [this]
      · rw [parseAux_skip _ _ _ _ hopen, ih _ _ hlen]
        exact forall_wikilinkAt_cons_iff (wikilinkAt_zero_of_not_open hopen)

lemma matchDecomp_cons {c : Char} {tail : List Char} {i : Nat} {m : WikilinkMatch}
    (h : MatchDecomp tail (i + 1) m) : MatchDecomp (c :: tail) i m := by
  obtain ⟨pre, content, suf, hcs, h1, h2, hstart, hend, htar, hlab⟩ := h
  refine ⟨c :: pre, content, suf, ?_, h1, h2, ?_, hend, htar, hlab⟩
  · rw [List.cons_append, hcs]
  · rw [hstart, List.length_cons]
    omega

lemma parseAux_mem_decomp :
    ∀ (fuel : Nat) (cs : List Char) (i : Nat), cs.length ≤ fuel →
      ∀ m ∈ parseAux fuel cs i, MatchDecomp cs i m := by
  intro fuel
  induction fuel with
  | zero =>
    intro cs i _ m hm
    rw [parseAux_zero] at hm
    cases hm
  | succ fuel ih =>
    intro cs i hle m hm
    rcases cs with _ | ⟨c, rest⟩
    · rw [parseAux_nil] at hm
      cases hm
    · have hlen : rest.length ≤ fuel := by
        simp only [List.length_cons] at hle
        omega
      by_cases hopen : (c :: rest).take 2 = ['[', '[']
      · obtain ⟨rfl, rest2, rfl⟩ := take_two_openEq hopen
        by_cases hemp : rest2.takeWhile (· != ']') = []
        · rw [parseAux_open_empty _ _ _ hemp] at hm
          exact matchDecomp_cons (ih _ _ hlen m hm)
        · by_cases hcl : (rest2.dropWhile (· != ']')).take 2 = [']', ']']
          · rw [parseAux_open_hit _ _ _ hemp hcl] at hm
            rw [List.mem_cons] at hm
            rcases hm with rfl | hm
            · refine ⟨[], rest2.takeWhile (· != ']'),
                (rest2.dropWhile (· != ']')).drop 2, ?_, hemp, ?_, by simp, by simp,
                rfl, rfl⟩
              · simpa using congrArg (fun l => '[' :: '[' :: l)
                  (takeWhile_close_decomp hcl)
              · intro hmem
                have := List.mem_takeWhile_imp hmem
                simp at this
            · have hlen2 : ((rest2.dropWhile (· != ']')).drop 2).length ≤ fuel := by
                have h1 := (List.dropWhile_sublist (l := rest2) (· != ']')).length_le
                have h2 : ((rest2.dropWhile (· != ']')).drop 2).length =
                    (rest2.dropWhile (· != ']')).length - 2 := by
                  simp [List.length_drop]
                simp only [List.length_cons] at hle
                omega
              obtain ⟨pre', content', suf', hcs, h1, h2, hstart, hend, htar, hlab⟩ :=
                ih _ _ hlen2 m hm
              refine ⟨'[' :: '[' :: (rest2.takeWhile (· != ']') ++ ']' :: ']' :: pre'),
                content', suf', ?_, h1, h2, ?_, hend, htar, hlab⟩
              · have hr2 := takeWhile_close_decomp hcl
                calc '[' :: '[' :: rest2
                    = '[' :: '[' :: (rest2.takeWhile (· != ']') ++
                        (']' :: ']' :: (rest2.dropWhile (· != ']')).drop 2)) := by
                      rw [← hr2]
                  _ = '[' :: '[' :: (rest2.takeWhile (· != ']') ++
                        (']' :: ']' :: (pre' ++
                          '[' :: '[' :: (content' ++ ']' :: ']' :: suf')))) := by
                      rw [← hcs]
                  _ = ('[' :: '[' :: (rest2.takeWhile (· != ']') ++ ']' :: ']' :: pre')) ++
                        '[' :: '[' :: (content' ++ ']' :: ']' :: suf') := by
                      simp [List.append_assoc]
              · rw [hstart]
                simp [List.length_append]
                omega
          · rw [parseAux_open_noclose _ _ _ hemp hcl] at hm
            exact matchDecomp_cons (ih _ _ hlen m hm)
      · rw [parseAux_skip _ _ _ _ hopen] at hm
        exact matchDecomp_cons (ih _ _ hlen m hm)

lemma parseWikilinks_mem_decomp {text : List Char} {m : WikilinkMatch}
    (hm : m ∈ parseWikilinks text) : MatchDecomp text 0 m :=
  parseAux_mem_decomp text.length text 0 (le_refl _) m hm

lemma trim_subset (s : List Char) : trim s ⊆ s := by
  intro x hx
  unfold trim at hx
  rw [List.mem_reverse] at hx
  have h1 := (List.dropWhile_sublist (l := (s.dropWhile isJsSpace).reverse) isJsSpace).subset hx
  rw [List.mem_reverse] at h1
  exact (List.dropWhile_sublist (l := s) isJsSpace).subset h1

lemma pipeTarget_subset (c : List Char) : pipeTarget c ⊆ c :=
  (List.takeWhile_sublist _).subset

lemma pipeLabelSrc_subset (c : List Char) : pipeLabelSrc c ⊆ c := by
  unfold pipeLabelSrc
  split
  · exact (List.takeWhile_sublist _).subset
  · rename_i x afterPipe heq
    split
    · exact (List.takeWhile_sublist _).subset
    · intro y hy
      have h1 : y ∈ afterPipe := (List.takeWhile_sublist _).subset hy
      have h2 : y ∈ c.dropWhile (· != '|') := by
        rw [heq]
        exact List.mem_cons_of_mem _ h1
      exact (List.dropWhile_sublist _).subset h2

/-! ### Lemmas about resolution and connections -/

lemma find?_append_cons {α : Type} (p : α → Bool) (l₁ l₂ : List α) (n : α)
    (h₁ : ∀ m ∈ l₁, p m = false) (hn : p n = true) :
    (l₁ ++ n :: l₂).find? p = some n := by
  induction l₁ with
  | nil => simpa using List.find?_cons_of_pos _ hn
  | cons m l₁ ih =>
    have hm : p m = false := h₁ m (List.mem_cons_self _ _)
    rw [List.cons_append, List.find?_cons_of_neg _ (by simp [hm])]
    exact ih fun x hx => h₁ x (List.mem_cons_of_mem _ hx)

lemma connectionForLink_eq_some_iff {il : List NotebookInfo} {nb : NotebookEntry}
    {link : WikilinkMatch} {p : List Char × List Char} :
    connectionForLink il nb link = some p ↔
      ∃ r, resolveWikilink link.target il = some r ∧ r.shapeId ≠ nb.shapeId ∧
        p = (nb.shapeId, r.shapeId) := by
  unfold connectionForLink
  rcases h : resolveWikilink link.target il with _ | r
  · show (none : Option (List Char × List Char)) = some p ↔
      ∃ r', (none : Option NotebookInfo) = some r' ∧ r'.shapeId ≠ nb.shapeId ∧
        p = (nb.shapeId, r'.shapeId)
    simp
  · show (if r.shapeId ≠ nb.shapeId then some (nb.shapeId, r.shapeId) else none) = some p ↔
      ∃ r', some r = some r' ∧ r'.shapeId ≠ nb.shapeId ∧ p = (nb.shapeId, r'.shapeId)
    by_cases hs : r.shapeId ≠ nb.shapeId
    · rw [if_pos hs]
      constructor
      · intro he
        injection he with he
        exact ⟨r, rfl, hs, he.symm⟩
      · rintro ⟨r', hr', hne, rfl⟩
        injection hr' with hr'
        subst hr'
        rfl
    · rw [if_neg hs]
      constructor
      · intro he
        cases he
      · rintro ⟨r', hr', hne, rfl⟩
        injection hr' with hr'
        subst hr'
        exact absurd hne hs

lemma connectionForLink_fst {il : List NotebookInfo} {nb : NotebookEntry}
    {link : WikilinkMatch} {p : List Char × List Char}
    (h : connectionForLink il nb link = some p) : p.1 = nb.shapeId := by
  obtain ⟨r, _, _, rfl⟩ := connectionForLink_eq_some_iff.mp h
  rfl

lemma count_filterMap_eq_countP {α β : Type} [BEq β] (f : α → Option β)
    (l : List α) (b : β) :
    (l.filterMap f).count b = l.countP (fun a => f a == some b) := by
  induction l with
  | nil => rfl
  | cons x xs ih =>
    rw [List.filterMap_cons, List.countP_cons]
    rcases hx : f x with _ | y
    · simp [hx, ih]
    · rw [List.count_cons]
      simp [hx, ih]

lemma flatMap_connections_count (il : List NotebookInfo) :
    ∀ (l : List NotebookEntry) (nb : NotebookEntry) (t : List Char),
      nb ∈ l → (l.map NotebookEntry.shapeId).Nodup →
      (l.flatMap fun x =>
          (parseWikilinks x.markdown).filterMap (connectionForLink il x)).count
          (nb.shapeId, t) =
        (parseWikilinks nb.markdown).countP
          (fun link => connectionForLink il nb link == some (nb.shapeId, t)) := by
  intro l
  induction l with
  | nil => intro nb t h; cases h
  | cons x xs ih =>
    intro nb t hmem hnd
    rw [List.flatMap_cons, List.count_append]
    rw [List.map_cons, List.nodup_cons] at hnd
    obtain ⟨hx, hnd⟩ := hnd
    rw [List.mem_cons] at hmem
    rcases hmem with rfl | hmem
    · have hz : (xs.flatMap fun y =>
          (parseWikilinks y.markdown).filterMap (connectionForLink il y)).count
          (nb.shapeId, t) = 0 := by
        rw [List.count_eq_zero]
        intro hc
        rw [List.mem_flatMap] at hc
        obtain ⟨y, hy, hmemy⟩ := hc
        rw [List.mem_filterMap] at hmemy
        obtain ⟨link, _, hcl⟩ := hmemy
        exact hx (List.mem_map.mpr ⟨y, hy, (connectionForLink_fst hcl).symm⟩)
      rw [hz, Nat.add_zero, count_filterMap_eq_countP]
    · have hne : x.shapeId ≠ nb.shapeId := by
        intro he
        exact hx (List.mem_map.mpr ⟨nb, hmem, he.symm⟩)
      have hz : ((parseWikilinks x.markdown).filterMap (connectionForLink il x)).count
          (nb.shapeId, t) = 0 := by
        rw [List.count_eq_zero]
        intro hc
        rw [List.mem_filterMap] at hc
        obtain ⟨link, _, hcl⟩ := hc
        exact hne (connectionForLink_fst hcl).symm
      rw [hz, Nat.zero_add]
      exact ih nb t hmem hnd

/-! ### Claim theorems -/

/-- Claim C2 (amended): the content between the delimiters is split on
EVERY `'|'` (JS `split('|')`), not just the first: the target is the
segment before the first `'|'` trimmed, and the label is the segment
strictly between the first and second `'|'` trimmed when a `'|'` is
present and that segment is non-empty (the empty string being falsy in
`parts[1] || parts[0]`), else the target segment trimmed.  For
`"[[note-123|Chapter One]]"` the target is `"note-123"` and the label is
`"Chapter One"`, as the claim states. -/
theorem parseWikilinks_target_label_split :
    (∀ (text : List Char), ∀ m ∈ parseWikilinks text,
        ∃ pre content suf,
          text = pre ++ '[' :: '[' :: (content ++ ']' :: ']' :: suf) ∧
          m.target = trim (content.takeWhile (· != '|')) ∧
          m.label = trim
            (match content.dropWhile (· != '|') with
             | [] => content.takeWhile (· != '|')
             | _ :: afterPipe =>
               if (afterPipe.takeWhile (· != '|')).isEmpty then
                 content.takeWhile (· != '|')
               else afterPipe.takeWhile (· != '|'))) ∧
    parseWikilinks (chars "[[note-123|Chapter One]]") =
      [{ target := chars "note-123", label := chars "Chapter One",
         start := 0, endPos := 24 }] := by
  refine ⟨?_, by decide⟩
  intro text m hm
  obtain ⟨pre, content, suf, hcs, _, _, _, _, htar, hlab⟩ :=
    parseWikilinks_mem_decomp hm
  exact ⟨pre, content, suf, hcs, htar, hlab⟩

/-- Claim C2 counterexample: at `"[[a|b|c]]"` the source returns label
`"b"` (the segment between the first two pipes), whereas splitting on
the FIRST `'|'` as the claim states would give label `"b|c"`. -/
theorem parseWikilinks_label_not_first_pipe_split :
    (parseWikilinks (chars "[[a|b|c]]")).map (fun m => m.label) = [chars "b"] ∧
      specFirstPipeLabel (chars "a|b|c") = chars "b|c" ∧
      chars "b" ≠ chars "b|c" := by
  decide

/-- Claim C2 witness: the amended statement applied to `"[[x|y]]"`. -/
theorem parseWikilinks_target_label_split_witness :
    ∃ pre content suf,
      chars "[[x|y]]" = pre ++ '[' :: '[' :: (content ++ ']' :: ']' :: suf) ∧
      chars "x" = trim (content.takeWhile (· != '|')) ∧
      chars "y" = trim
        (match content.dropWhile (· != '|') with
         | [] => content.takeWhile (· != '|')
         | _ :: afterPipe =>
           if (afterPipe.takeWhile (· != '|')).isEmpty then
             content.takeWhile (· != '|')
           else afterPipe.takeWhile (· != '|')) :=
  parseWikilinks_target_label_split.1 (chars "[[x|y]]")
    { target := chars "x", label := chars "y", start := 0, endPos := 7 } (by decide)

/-- Claim C3: resolution precedence — the first candidate whose
`notebookId` equals the target exactly (case-sensitively) wins, in
iteration order; only when no candidate matches by id does the first
case-insensitive title match win, again in iteration order.  An id
match anywhere in the list beats any title match. -/
theorem resolveWikilink_precedence :
    (∀ (target : List Char) (l₁ l₂ : List NotebookInfo) (n : NotebookInfo),
        (∀ m ∈ l₁, m.notebookId ≠ target) → n.notebookId = target →
        resolveWikilink target (l₁ ++ n :: l₂) = some n) ∧
    (∀ (target : List Char) (l₁ l₂ : List NotebookInfo) (n : NotebookInfo),
        (∀ m ∈ l₁ ++ n :: l₂, m.notebookId ≠ target) →
        lowerStr n.title = lowerStr target →
        (∀ m ∈ l₁, lowerStr m.title ≠ lowerStr target) →
        resolveWikilink target (l₁ ++ n :: l₂) = some n) := by
  constructor
  · intro target l₁ l₂ n h₁ hn
    unfold resolveWikilink
    rw [find?_append_cons _ l₁ l₂ n (fun m hm => by simpa using h₁ m hm)
      (by simpa using hn)]
  · intro target l₁ l₂ n hall hn h₁
    unfold resolveWikilink
    have hid : (l₁ ++ n :: l₂).find? (fun x => x.notebookId == target) = none := by
      rw [List.find?_eq_none]
      intro x hx
      simpa using hall x hx
    rw [hid, find?_append_cons _ l₁ l₂ n (fun m hm => by simpa using h₁ m hm)
      (by simpa using hn)]

/-- Claim C3 witness: with candidates `[{id "a", title "X"},
{id "b", title "a"}]`, resolving `"a"` returns the first candidate —
its id match beats the second candidate's title match. -/
theorem resolveWikilink_precedence_witness :
    resolveWikilink (chars "a") [infoX, infoY] = some infoX :=
  resolveWikilink_precedence.1 (chars "a") [] [infoY] infoX (by simp) (by decide)

/-- Claim C4: a pair is in `buildConnectionMap` exactly when some
notebook's parsed link resolves — against the info list of ALL notebooks,
the source included — to a notebook with a different `shapeId`; the pair
is then (source shape, resolved shape).  A link resolving to the source
itself therefore contributes nothing. -/
theorem buildConnectionMap_mem_iff (notebooks : List NotebookEntry)
    (p : List Char × List Char) :
    p ∈ buildConnectionMap notebooks ↔
      ∃ nb ∈ notebooks, ∃ link ∈ parseWikilinks nb.markdown, ∃ r,
        resolveWikilink link.target (toInfoList notebooks) = some r ∧
        r.shapeId ≠ nb.shapeId ∧ p = (nb.shapeId, r.shapeId) := by
  unfold buildConnectionMap
  rw [List.mem_flatMap]
  constructor
  · rintro ⟨nb, hnb, hp⟩
    rw [List.mem_filterMap] at hp
    obtain ⟨link, hlink, hc⟩ := hp
    obtain ⟨r, h1, h2, h3⟩ := connectionForLink_eq_some_iff.mp hc
    exact ⟨nb, hnb, link, hlink, r, h1, h2, h3⟩
  · rintro ⟨nb, hnb, link, hlink, r, h1, h2, rfl⟩
    exact ⟨nb, hnb, List.mem_filterMap.mpr ⟨link, hlink,
      connectionForLink_eq_some_iff.mpr ⟨r, h1, h2, rfl⟩⟩⟩

/-- Claim C4 witness: in the three-notebook scenario the pair
(A, B) is produced by A's `[[B]]` link. -/
theorem buildConnectionMap_mem_iff_witness :
    (chars "sA", chars "sB") ∈ buildConnectionMap [nbA, nbB, nbC] :=
  (buildConnectionMap_mem_iff [nbA, nbB, nbC] (chars "sA", chars "sB")).mpr
    ⟨nbA, by decide,
      { target := chars "B", label := chars "B", start := 4, endPos := 9 }, by decide,
      { shapeId := chars "sB", notebookId := chars "b-id", title := chars "B" },
      by decide, by decide, by decide⟩

/-- Claim C5: the parser is a total function of the string (the
embedding is total by construction), and it returns the empty list
exactly when no offset of the input carries a well-formed
`[[...]]` occurrence; in particular malformed input (an unterminated
`[[`) yields no match while any well-formed occurrence elsewhere in the
string is still found. -/
theorem parseWikilinks_eq_nil_iff (text : List Char) :
    parseWikilinks text = [] ↔ ∀ j < text.length, wikilinkAt text j = false := by
  unfold parseWikilinks
  rw [parseAux_eq_nil_iff text.length text 0 (le_refl _)]
  constructor
  · intro hall j _
    exact hall j
  · intro hall j
    by_cases hj : j < text.length
    · exact hall j hj
    · exact wikilinkAt_ge_length (Nat.le_of_not_lt hj)

/-- Claim C5 witness: a string consisting only of malformed wikilink
syntax parses to the empty list. -/
theorem parseWikilinks_malformed_empty :
    parseWikilinks (chars "[[only [[malformed wikilink syntax") = [] :=
  (parseWikilinks_eq_nil_iff _).mpr (by decide)

/-- Claim C6: a dangling reference is absence, not an error: a target
matching no candidate's `notebookId` (case-sensitively) and no
candidate's `title` (case-insensitively) resolves to `none`, and the
per-link connection emission of `buildConnectionMap` produces no pair
for such a link. -/
theorem resolveWikilink_dangling (target : List Char) (infoList : List NotebookInfo)
    (h : ∀ n ∈ infoList, n.notebookId ≠ target ∧ lowerStr n.title ≠ lowerStr target) :
    resolveWikilink target infoList = none ∧
      ∀ (nb : NotebookEntry) (link : WikilinkMatch), link.target = target →
        connectionForLink infoList nb link = none := by
  have hres : resolveWikilink target infoList = none := by
    unfold resolveWikilink
    have h1 : infoList.find? (fun n => n.notebookId == target) = none := by
      rw [List.find?_eq_none]
      intro x hx
      simpa using (h x hx).1
    have h2 : infoList.find? (fun n => lowerStr n.title == lowerStr target) = none := by
      rw [List.find?_eq_none]
      intro x hx
      simpa using (h x hx).2
    rw [h1, h2]
  refine ⟨hres, ?_⟩
  intro nb link hlt
  unfold connectionForLink
  rw [hlt, hres]

/-- Claim C6 witness: `resolve("nonexistent", [{title "My Notes"}])`
is not-found. -/
theorem resolveWikilink_dangling_witness :
    resolveWikilink (chars "nonexistent") [infoNotes] = none :=
  (resolveWikilink_dangling (chars "nonexistent") [infoNotes] (by decide)).1

/-- Claim C1 (amended): `buildConnectionMap` does NOT deduplicate: when
shape ids are pairwise distinct, the multiplicity of the ordered pair
(source shape, `t`) in the output equals the number of wikilink
occurrences in the source notebook's text that resolve to a notebook
with shape id `t` different from the source — so a notebook with two
wikilinks resolving to the same target contributes two identical pairs,
not one. -/
theorem buildConnectionMap_pair_multiplicity
    (notebooks : List NotebookEntry) (nb : NotebookEntry) (t : List Char)
    (hmem : nb ∈ notebooks)
    (hnd : (notebooks.map NotebookEntry.shapeId).Nodup) :
    (buildConnectionMap notebooks).count (nb.shapeId, t) =
      (parseWikilinks nb.markdown).countP
        (fun link =>
          match resolveWikilink link.target (toInfoList notebooks) with
          | some r => r.shapeId == t && r.shapeId != nb.shapeId
          | none => false) := by
  unfold buildConnectionMap
  rw [flatMap_connections_count (toInfoList notebooks) notebooks nb t hmem hnd]
  congr 1
  funext link
  rcases h : resolveWikilink link.target (toInfoList notebooks) with _ | r
  · simp [connectionForLink, h]
  · by_cases hs : r.shapeId = nb.shapeId
    · simp [connectionForLink, h, hs]
    · simp only [connectionForLink, h, ne_eq, hs, not_false_iff, if_true]
      by_cases ht : r.shapeId = t
      · subst ht
        simp [hs]
      · have hL : ((nb.shapeId, r.shapeId) == (nb.shapeId, t)) = false := by
          rw [beq_eq_false_iff_ne]
          intro hp
          exact ht (congrArg Prod.snd hp)
        have hR : (r.shapeId == t) = false := by simpa using ht
        simp [hL, hR]

/-- Claim C1 counterexample: a notebook whose text is
`"[[b-id]] [[b-id]]"` contributes the pair (A, B) twice — the output
contains duplicates, and the pair's multiplicity is 2, not 1. -/
theorem buildConnectionMap_duplicate_pairs :
    buildConnectionMap [dupNb, nbB] =
      [(chars "sA", chars "sB"), (chars "sA", chars "sB")] ∧
      (buildConnectionMap [dupNb, nbB]).count (chars "sA", chars "sB") ≠ 1 := by
  decide

/-- Claim C1 witness: the multiplicity statement evaluated on the
duplicate-link fixture (count 2 on each side). -/
theorem buildConnectionMap_pair_multiplicity_witness :
    (buildConnectionMap [dupNb, nbB]).count (dupNb.shapeId, chars "sB") =
      (parseWikilinks dupNb.markdown).countP
        (fun link =>
          match resolveWikilink link.target (toInfoList [dupNb, nbB]) with
          | some r => r.shapeId == chars "sB" && r.shapeId != dupNb.shapeId
          | none => false) :=
  buildConnectionMap_pair_multiplicity [dupNb, nbB] dupNb (chars "sB")
    (by decide) (by decide)

/-- Claim C7: the backlinks computation is a single `filter` over the
notebook list (hence a sublist — candidate order preserved, nothing
sorted); with a non-empty selected id that belongs to some notebook, a
notebook is in the result exactly when it is not the selected one and
one of its parsed wikilinks resolves (against all notebooks) to the
selected shape id; and in the three-notebook scenario the backlinks of
B are [A], of C are [A], and of A are []. -/
theorem backlinks_characterization :
    (∀ (sid : List Char) (notebooks : List NotebookEntry),
        List.Sublist (backlinks (some sid) notebooks) notebooks) ∧
    (∀ (sid : List Char) (notebooks : List NotebookEntry), sid ≠ [] →
        (∃ s ∈ notebooks, s.shapeId = sid) →
        ∀ n, n ∈ backlinks (some sid) notebooks ↔
          n ∈ notebooks ∧ n.shapeId ≠ sid ∧
            ∃ link ∈ parseWikilinks n.markdown, ∃ r,
              resolveWikilink link.target (toInfoList notebooks) = some r ∧
              r.shapeId = sid) ∧
    backlinks (some (chars "sB")) [nbA, nbB, nbC] = [nbA] ∧
    backlinks (some (chars "sC")) [nbA, nbB, nbC] = [nbA] ∧
    backlinks (some (chars "sA")) [nbA, nbB, nbC] = [] := by
  refine ⟨?_, ?_, by decide, by decide, by decide⟩
  · intro sid notebooks
    cases hE : sid.isEmpty with
    | true =>
      simp only [backlinks, hE, if_true]
      exact List.nil_sublist _
    | false =>
      cases hf : notebooks.find? (fun x => x.shapeId == sid) with
      | none =>
        simp only [backlinks, hE, Bool.false_eq_true, if_false, hf]
        exact List.nil_sublist _
      | some y =>
        simp only [backlinks, hE, Bool.false_eq_true, if_false, hf]
        exact List.filter_sublist _
  · intro sid notebooks hsid hex n
    have hEmp : sid.isEmpty = false := isEmpty_false_of_ne_nil hsid
    obtain ⟨s, hs, hss⟩ := hex
    obtain ⟨y, hy⟩ : ∃ y, notebooks.find? (fun x => x.shapeId == sid) = some y := by
      cases hf : notebooks.find? (fun x => x.shapeId == sid) with
      | some y => exact ⟨y, rfl⟩
      | none =>
        rw [List.find?_eq_none] at hf
        exact absurd (by simpa using hss) (hf s hs)
    simp only [backlinks, hEmp, Bool.false_eq_true, if_false, hy]
    rw [List.mem_filter]
    refine and_congr_right fun _ => ?_
    by_cases heq : n.shapeId = sid
    · simp [heq]
    · have hbeq : (n.shapeId == sid) = false := by simpa using heq
      simp only [hbeq, Bool.false_eq_true, if_false]
      rw [List.any_eq_true]
      constructor
      · rintro ⟨link, hlink, hl⟩
        rcases hres : resolveWikilink link.target (toInfoList notebooks) with _ | r
        · rw [hres] at hl
          cases hl
        · rw [hres] at hl
          exact ⟨heq, link, hlink, r, hres, by simpa using hl⟩
      · rintro ⟨_, link, hlink, r, hres, hr⟩
        refine ⟨link, hlink, ?_⟩
        rw [hres]
        simpa using hr

/-- Claim C7 witness: in the three-notebook scenario, A is a backlink
of B via its `[[B]]` link. -/
theorem backlinks_characterization_witness :
    nbA ∈ backlinks (some (chars "sB")) [nbA, nbB, nbC] :=
  (backlinks_characterization.2.1 (chars "sB") [nbA, nbB, nbC] (by decide)
      ⟨nbB, by decide, by decide⟩ nbA).mpr
    ⟨by decide, by decide,
      { target := chars "B", label := chars "B", start := 4, endPos := 9 }, by decide,
      { shapeId := chars "sB", notebookId := chars "b-id", title := chars "B" },
      by decide, by decide⟩

/-- Claim C8: the parser is a pure function of its input string — equal
inputs give equal match sequences (targets, labels and offsets alike);
in this embedding purity is structural, so the statement is
determinism. -/
theorem parseWikilinks_pure (t₁ t₂ : List Char) (h : t₁ = t₂) :
    parseWikilinks t₁ = parseWikilinks t₂ := by
  rw [h]

/-- Claim C8 witness: two parses of the same string coincide. -/
theorem parseWikilinks_pure_witness :
    parseWikilinks (chars "[[Foo]]") = parseWikilinks (chars "[[Foo]]") :=
  parseWikilinks_pure _ _ rfl

/-- Claim C9 (amended): the collision force of the graph view's
simulation is `forceCollide(25)` — a constant radius of 25 for every
node, independent of `linkCount`; it is the RENDERED marker radius,
`6 + min(linkCount * 2, 10)`, that grows (monotonically) with the
outgoing-link count. -/
theorem forceCollideRadius_constant :
    (∀ node : GraphNode, forceCollideRadius node = 25) ∧
    (∀ n m : GraphNode, n.linkCount ≤ m.linkCount →
        nodeRenderRadius n ≤ nodeRenderRadius m) := by
  refine ⟨fun _ => rfl, ?_⟩
  intro n m h
  unfold nodeRenderRadius
  have h2 : n.linkCount * 2 ≤ m.linkCount * 2 := Nat.mul_le_mul_right 2 h
  have hmin : min (n.linkCount * 2) 10 ≤ min (m.linkCount * 2) 10 :=
    min_le_min h2 (le_refl 10)
  omega

/-- Claim C9 counterexample: a node with 5 outgoing links and a node
with 0 get the same collision radius — the collision radius is not
derived from `linkCount`. -/
theorem forceCollideRadius_ignores_linkCount :
    gNode5.linkCount > gNode0.linkCount ∧
      forceCollideRadius gNode5 = forceCollideRadius gNode0 ∧
      ¬ forceCollideRadius gNode5 > forceCollideRadius gNode0 := by
  decide

/-- Claim C9 witness: the monotone rendered-radius statement applied to
the two fixture nodes. -/
theorem forceCollideRadius_constant_witness :
    nodeRenderRadius gNode0 ≤ nodeRenderRadius gNode5 :=
  forceCollideRadius_constant.2 gNode0 gNode5 (by decide)

/-- Claim C10: every produced match delimits a substring
`"[[" ++ content ++ "]]"` of the input with `content` non-empty and
free of `']'`, the match's `start`/`endPos` being the offsets of that
substring (exclusive end); no returned target or label contains `']'`,
and `"[[]]"` produces no match. -/
theorem parseWikilinks_match_shape :
    (∀ (text : List Char), ∀ m ∈ parseWikilinks text,
        ∃ pre content suf,
          text = pre ++ '[' :: '[' :: (content ++ ']' :: ']' :: suf) ∧
          content ≠ [] ∧ ']' ∉ content ∧
          m.start = pre.length ∧
          m.endPos = m.start + content.length + 4 ∧
          ']' ∉ m.target ∧ ']' ∉ m.label) ∧
    parseWikilinks (chars "[[]]") = [] := by
  refine ⟨?_, by decide⟩
  intro text m hm
  obtain ⟨pre, content, suf, hcs, h1, h2, hstart, hend, htar, hlab⟩ :=
    parseWikilinks_mem_decomp hm
  refine ⟨pre, content, suf, hcs, h1, h2, by simpa using hstart, hend, ?_, ?_⟩
  · rw [htar]
    intro hc
    exact h2 (pipeTarget_subset content (trim_subset _ hc))
  · rw [hlab]
    intro hc
    exact h2 (pipeLabelSrc_subset content (trim_subset _ hc))

/-- Claim C10 witness: the shape statement applied to `"[[x]]"` and its
unique match. -/
theorem parseWikilinks_match_shape_witness :
    ∃ pre content suf,
      chars "[[x]]" = pre ++ '[' :: '[' :: (content ++ ']' :: ']' :: suf) ∧
      content ≠ [] ∧ ']' ∉ content ∧
      (0 : Nat) = pre.length ∧
      (5 : Nat) = 0 + content.length + 4 ∧
      ']' ∉ chars "x" ∧ ']' ∉ chars "x" :=
  parseWikilinks_match_shape.1 (chars "[[x]]")
    { target := chars "x", label := chars "x", start := 0, endPos := 5 } (by decide)

end Wikilinks
